import Mathlib

/-!
Shallow embedding of `src/any.hpp`: a type-erased container `Any<SIZE>` with
small-buffer optimization, a per-type vtable singleton, and a non-owning
reference mode entered through `Handle<T>`.

Modelling choices:
* A concrete C++ payload type is a `Ty`: a distinguishing `id` plus its
  `size` (= `sizeof(std::decay_t<T>)`).  All payloads are modelled as raw
  little-endian object representations (a `Nat`), i.e. trivially copyable
  data; move-construction reads the source bytes and leaves them intact,
  which is exact for such types.
* The anonymous `union { void *mObject; AlignedStorageT<SIZE> mStorage; }`
  is one byte buffer, held as the natural number `raw`.  Writing member
  `mObject` stores 8 bytes (pointer width) at offset 0; placement-new of a
  `T` into `mStorage` stores `sizeof(T)` bytes at offset 0.  Both members
  alias, exactly as in the source, so a write through one clobbers the
  low bytes of the other.
* The heap is an association list from addresses to objects together with
  allocation/deallocation counters; `new` returns the next fresh address.
  Dereferencing an absent address (undefined behaviour in the source) makes
  the modelled operation return `none`.
* One vtable singleton exists per instantiation: `VTablePtr.val t` models
  `&VTableT<T>::mVTable` and `VTablePtr.ref t` models
  `&VTableT<Handle<T>>::mVTable`; distinct constructors/arguments model the
  distinct singleton addresses.
-/

/-- Number of values representable in `s` bytes. -/
def byteW (s : Nat) : Nat := 2 ^ (8 * s)

/-- Read the low `s` bytes of a buffer. -/
def getBytes (raw s : Nat) : Nat := raw % byteW s

/-- Overwrite the low `s` bytes of a buffer with (the low `s` bytes of) `v`,
keeping the higher bytes. -/
def setBytes (raw s v : Nat) : Nat := raw / byteW s * byteW s + v % byteW s

theorem byteW_pos (s : Nat) : 0 < byteW s := Nat.pow_pos (by decide)

theorem getBytes_lt (raw s : Nat) : getBytes raw s < byteW s :=
  Nat.mod_lt _ (byteW_pos s)

theorem getBytes_setBytes (raw s v : Nat) :
    getBytes (setBytes raw s v) s = v % byteW s := by
  unfold getBytes setBytes
  rw [Nat.add_comm, Nat.add_mul_mod_self_right, Nat.mod_mod_of_dvd _ dvd_rfl]

theorem getBytes_setBytes_of_lt (raw s v : Nat) (h : v < byteW s) :
    getBytes (setBytes raw s v) s = v := by
  rw [getBytes_setBytes, Nat.mod_eq_of_lt h]

theorem getBytes_getBytes (raw s : Nat) :
    getBytes (getBytes raw s) s = getBytes raw s :=
  Nat.mod_mod_of_dvd _ dvd_rfl

theorem getBytes_of_lt (raw s : Nat) (h : raw < byteW s) : getBytes raw s = raw :=
  Nat.mod_eq_of_lt h

theorem setBytes_getBytes_self (raw s : Nat) :
    setBytes raw s (getBytes raw s) = raw := by
  unfold setBytes getBytes
  rw [Nat.mod_mod_of_dvd _ dvd_rfl, Nat.mul_comm, Nat.div_add_mod]

theorem setBytes_zero (s v : Nat) : setBytes 0 s v = v % byteW s := by
  unfold setBytes
  simp

/-- A concrete C++ payload type: identity plus `sizeof`. -/
structure Ty where
  id : Nat
  size : Nat
deriving DecidableEq

/-- Address of a vtable singleton: `val t` is `&VTableT<T>::mVTable`,
`ref t` is `&VTableT<Handle<T>>::mVTable`. -/
inductive VTablePtr where
  | val : Ty → VTablePtr
  | ref : Ty → VTablePtr
deriving DecidableEq

/-- A heap-resident object: its dynamic type and object representation. -/
structure HeapObj where
  ty : Ty
  val : Nat
deriving DecidableEq

/-- The allocator state: live objects, next fresh address, and counters of
`new` / `delete` calls. -/
structure Memory where
  heap : List (Nat × HeapObj)
  nextAddr : Nat
  allocCount : Nat
  freeCount : Nat
deriving DecidableEq

/-- Look an address up in the heap. -/
def lookupAddr : List (Nat × HeapObj) → Nat → Option HeapObj
  | [], _ => none
  | (q, o) :: rest, p => if q = p then some o else lookupAddr rest p

/-- Remove the first binding for an address. -/
def heapEraseList : List (Nat × HeapObj) → Nat → List (Nat × HeapObj)
  | [], _ => []
  | (q, o) :: rest, p => if q = p then rest else (q, o) :: heapEraseList rest p

/-- Assign value `v`, as `t.size` bytes, through a pointer to an existing
object (fails on a dangling pointer). -/
def heapWriteList : List (Nat × HeapObj) → Nat → Ty → Nat → Option (List (Nat × HeapObj))
  | [], _, _, _ => none
  | (q, o) :: rest, p, t, v =>
    if q = p then some ((q, ⟨o.ty, setBytes o.val t.size v⟩) :: rest)
    else (heapWriteList rest p t v).map fun l => (q, o) :: l

def heapRead (m : Memory) (p : Nat) : Option HeapObj := lookupAddr m.heap p

def heapWrite (m : Memory) (p : Nat) (t : Ty) (v : Nat) : Option Memory :=
  (heapWriteList m.heap p t v).map fun l => { m with heap := l }

/-- `new T(...)`: place an object at a fresh address. -/
def memAlloc (m : Memory) (o : HeapObj) : Nat × Memory :=
  (m.nextAddr, ⟨(m.nextAddr, o) :: m.heap, m.nextAddr + 1, m.allocCount + 1, m.freeCount⟩)

/-- `delete p`: destroy and deallocate (fails if `p` is not live). -/
def memFree (m : Memory) (p : Nat) : Option Memory :=
  match lookupAddr m.heap p with
  | none => none
  | some _ => some ⟨heapEraseList m.heap p, m.nextAddr, m.allocCount, m.freeCount + 1⟩

/-- The state of one `Any<SIZE>` object: `mVTable` (null = empty), the
anonymous union's bytes `raw`, and the `mSBO` flag. -/
structure AnyState where
  mVTable : Option VTablePtr
  raw : Nat
  mSBO : Bool
deriving DecidableEq

/-- `Any() : mVTable(nullptr), mObject(nullptr), mSBO(false)`. -/
def anyDefault : AnyState := ⟨none, 0, false⟩

/-- The SBO `Copy(void *to, const void *from)` / `Move(void *to, const void *from)`
vtable entries, dispatched on the bound table: `VTableT<T>` placement-constructs
a `T` (writes `sizeof(T)` bytes of `to`), `VTableT<Handle<T>>`'s entries are
no-ops.  A null table here would be a crash in the source; it never occurs in
a reachable state (invariant I1) and is modelled as inert. -/
def inlineTransfer : Option VTablePtr → Nat → Nat → Nat
  | some (VTablePtr.val t), toRaw, fromRaw => setBytes toRaw t.size (getBytes fromRaw t.size)
  | some (VTablePtr.ref _), toRaw, _ => toRaw
  | none, toRaw, _ => toRaw

/-- The allocating `Copy(const void *from)` / `Move(const void *from)` vtable
entries: `VTableT<T>` heap-allocates a new `T` constructed from `*from`;
`VTableT<Handle<T>>` returns the input address unchanged with no allocation. -/
def allocTransfer : VTablePtr → Memory → Nat → Option (Nat × Memory)
  | VTablePtr.val t, m, fromPtr =>
    match heapRead m fromPtr with
    | none => none
    | some o => some (memAlloc m ⟨t, getBytes o.val t.size⟩)
  | VTablePtr.ref _, m, fromPtr => some (fromPtr, m)

/-- The `Destroy(void *object, bool SBO)` vtable entry: `VTableT<T>` runs the
destructor in place (SBO) or `delete`s the allocation; `VTableT<Handle<T>>`
does nothing. -/
def tableDestroy : VTablePtr → Nat → Bool → Memory → Option Memory
  | VTablePtr.val _, _, true, m => some m
  | VTablePtr.val _, p, false, m => memFree m p
  | VTablePtr.ref _, _, _, m => some m

/-- The value constructors `Any(T &&object)`: the SFINAE pair places the
decayed payload inline when `sizeof(T_) <= SIZE` and heap-allocates it
otherwise, then binds `&VTableT<T_>::mVTable`. -/
def anyFromValue (SIZE : Nat) (t : Ty) (v : Nat) (m : Memory) : AnyState × Memory :=
  if t.size ≤ SIZE then
    (⟨some (VTablePtr.val t), setBytes 0 t.size v, true⟩, m)
  else
    let r := memAlloc m ⟨t, getBytes v t.size⟩
    (⟨some (VTablePtr.val t), setBytes 0 8 r.1, false⟩, r.2)

/-- `Any(Handle<T> handle)`: store the wrapped address in `mObject` and bind
`&VTableT<Handle<T>>::mVTable`; `mSBO` stays false from `Any()`. -/
def anyFromHandle (t : Ty) (p : Nat) : AnyState :=
  ⟨some (VTablePtr.ref t), setBytes 0 8 p, false⟩

/-- `Any(const Any &other)`: dispatch through the source's vtable
(SBO copy into the fresh buffer, or allocating copy), then take over the
source's `mSBO` and `mVTable`. -/
def anyCopyCtor (other : AnyState) (m : Memory) : Option (AnyState × Memory) :=
  match other.mVTable with
  | none => some (anyDefault, m)
  | some vt =>
    if other.mSBO then
      some (⟨some vt, inlineTransfer (some vt) 0 other.raw, true⟩, m)
    else
      match allocTransfer vt m (getBytes other.raw 8) with
      | none => none
      | some r => some (⟨some vt, setBytes 0 8 r.1, false⟩, r.2)

/-- `Any(Any &&other)`: like the copy constructor but through the `Move`
entries.  Returns (destination, source afterwards, memory): the constructor
never writes `other`'s members, and for the trivially copyable payloads
modelled here move-construction leaves the source bytes intact, so the
source state is returned unchanged. -/
def anyMoveCtor (other : AnyState) (m : Memory) : Option (AnyState × AnyState × Memory) :=
  match other.mVTable with
  | none => some (anyDefault, other, m)
  | some vt =>
    if other.mSBO then
      some (⟨some vt, inlineTransfer (some vt) 0 other.raw, true⟩, other, m)
    else
      match allocTransfer vt m (getBytes other.raw 8) with
      | none => none
      | some r => some (⟨some vt, setBytes 0 8 r.1, false⟩, other, r.2)

/-- `~Any()`: if non-empty, `Destroy(&mStorage, true)` or `Destroy(mObject, false)`. -/
def anyDestroy (a : AnyState) (m : Memory) : Option Memory :=
  match a.mVTable with
  | none => some m
  | some vt =>
    if a.mSBO then tableDestroy vt 0 true m
    else tableDestroy vt (getBytes a.raw 8) false m

/-- `operator bool()`: non-null `mVTable`. -/
def anyBool (a : AnyState) : Bool := a.mVTable.isSome

/-- `Is<T>()`: compare `mVTable` against `&VTableT<Handle<T>>::mVTable` and
`&VTableT<T>::mVTable`. -/
def anyIs (t : Ty) (a : AnyState) : Bool :=
  decide (a.mVTable = some (VTablePtr.ref t)) || decide (a.mVTable = some (VTablePtr.val t))

/-- `Get<T>()` (unchecked): reinterpret `mStorage` as a `T`, or dereference
`mObject` as a `T*`; returns the object representation read there. -/
def anyGet (t : Ty) (a : AnyState) (m : Memory) : Option Nat :=
  if a.mSBO then some (getBytes a.raw t.size)
  else (heapRead m (getBytes a.raw 8)).map fun o => getBytes o.val t.size

/-- `TryGet<T>()`: null unless `Is<T>()`, else the same access as `Get<T>`. -/
def anyTryGet (t : Ty) (a : AnyState) (m : Memory) : Option Nat :=
  if anyIs t a then anyGet t a m else none

/-- The address `&Get<T>()` evaluates to: `&mStorage` (the container's own
buffer, whose address `bufAddr` is supplied by the context) when `mSBO`,
else the pointer stored in `mObject`.  No type check is involved. -/
def anyGetPtr (a : AnyState) (bufAddr : Nat) : Nat :=
  if a.mSBO then bufAddr else getBytes a.raw 8

/-- `Handle<T>(const Any<SIZE> &object) : mReference(&object.Get<T>())`:
wraps the unchecked `Get<T>` address; performs no `Is<T>` check. -/
def handleFromAny (t : Ty) (a : AnyState) (bufAddr : Nat) : Nat :=
  anyGetPtr a bufAddr

/-- `Swap(Any &other)` between two distinct objects, transcribed line by
line.  In the mixed branches the source first writes one union member and
then reads the other, so the updated `raw` (with its low bytes clobbered)
is what the second step reads — exactly as the aliasing union dictates. -/
def anySwap (a b : AnyState) : AnyState × AnyState :=
  if a.mSBO then
    if b.mSBO then
      let storageTemp := inlineTransfer a.mVTable 0 a.raw
      let aRaw := inlineTransfer b.mVTable a.raw b.raw
      let bRaw := inlineTransfer a.mVTable b.raw storageTemp
      (⟨b.mVTable, aRaw, true⟩, ⟨a.mVTable, bRaw, true⟩)
    else
      let aRaw := setBytes a.raw 8 (getBytes b.raw 8)
      let bRaw := inlineTransfer a.mVTable b.raw aRaw
      (⟨b.mVTable, aRaw, false⟩, ⟨a.mVTable, bRaw, true⟩)
  else
    if b.mSBO then
      let aRaw := inlineTransfer b.mVTable a.raw b.raw
      let bRaw := setBytes b.raw 8 (getBytes aRaw 8)
      (⟨b.mVTable, aRaw, true⟩, ⟨a.mVTable, bRaw, false⟩)
    else
      let aRaw := setBytes a.raw 8 (getBytes b.raw 8)
      let bRaw := setBytes b.raw 8 (getBytes a.raw 8)
      (⟨b.mVTable, aRaw, false⟩, ⟨a.mVTable, bRaw, false⟩)

/-- `Swap(Any &other)` called with `this == &other`: every member access
aliases the single object, so the sequence is replayed on one state. -/
def anySwapSelf (a : AnyState) : AnyState :=
  if a.mSBO then
    let storageTemp := inlineTransfer a.mVTable 0 a.raw
    let raw1 := inlineTransfer a.mVTable a.raw a.raw
    let raw2 := inlineTransfer a.mVTable raw1 storageTemp
    ⟨a.mVTable, raw2, true⟩
  else
    let temp := getBytes a.raw 8
    let raw1 := setBytes a.raw 8 (getBytes a.raw 8)
    let raw2 := setBytes raw1 8 temp
    ⟨a.mVTable, raw2, false⟩

/-- `operator=(T &&object)`: in-place assignment when `Is<T_>()` holds,
otherwise destroy the old content and rebuild by the size threshold; an
empty container builds directly.  Note the source's empty branch tests
`sizeof(T_) < SIZE` (strict) while the non-empty branch and the
constructors test `<=`. -/
def anyAssignValue (SIZE : Nat) (t : Ty) (v : Nat) (a : AnyState) (m : Memory) :
    Option (AnyState × Memory) :=
  match a.mVTable with
  | some vt =>
    if anyIs t a then
      if a.mSBO then
        some (⟨a.mVTable, setBytes a.raw t.size v, a.mSBO⟩, m)
      else
        (heapWrite m (getBytes a.raw 8) t v).map fun m2 => (a, m2)
    else
      match (if a.mSBO then tableDestroy vt 0 true m
             else tableDestroy vt (getBytes a.raw 8) false m) with
      | none => none
      | some m1 =>
        if t.size ≤ SIZE then
          some (⟨some (VTablePtr.val t), setBytes a.raw t.size v, true⟩, m1)
        else
          let r := memAlloc m1 ⟨t, getBytes v t.size⟩
          some (⟨some (VTablePtr.val t), setBytes a.raw 8 r.1, false⟩, r.2)
  | none =>
    if t.size < SIZE then
      some (⟨some (VTablePtr.val t), setBytes a.raw t.size v, true⟩, m)
    else
      let r := memAlloc m ⟨t, getBytes v t.size⟩
      some (⟨some (VTablePtr.val t), setBytes a.raw 8 r.1, false⟩, r.2)

/-- `operator=(const Any &other)` with `other == *this` (self-assignment):
`Any temp(*this); Swap(temp);` then `temp` is destroyed. -/
def anyAssignCopySelf (a : AnyState) (m : Memory) : Option (AnyState × Memory) :=
  match anyCopyCtor a m with
  | none => none
  | some r =>
    let s := anySwap a r.1
    (anyDestroy s.2 r.2).map fun m2 => (s.1, m2)

/-- Memory state used by the concrete instances below: empty heap, next fresh
address 1000. -/
def mem0 : Memory := ⟨[], 1000, 0, 0⟩

/-- C8: a default-constructed (empty) container is falsy in boolean context,
`Is<T>` is false for every `T`, and `TryGet<T>` returns null for every `T`
rather than raising any error. -/
theorem c8_empty_contract :
    anyBool anyDefault = false
    ∧ ∀ (t : Ty) (m : Memory), anyIs t anyDefault = false ∧ anyTryGet t anyDefault m = none := by
  refine ⟨rfl, fun t m => ⟨rfl, ?_⟩⟩
  simp [anyTryGet, anyIs, anyDefault]

/-- C1: the claim that `Swap` exchanges values in all four storage-mode
combinations fails in both mixed combinations, because `mObject` and
`mStorage` share a union.  Concretely with `Any<8>`: `a` holds `int 42`
inline, `b` holds a 16-byte payload `7` on the heap at address 1000.
After `a.Swap(b)`, `a` correctly holds the heap payload, but `b`'s inline
bytes are the pointer value 1000, not 42 (the pointer write clobbered the
payload before it was moved out).  In the opposite direction `b.Swap(a)`,
the inline payload write clobbers the pointer before it is handed over, so
the now-heap side holds dangling address 42 and its `Get` dereference fails. -/
theorem c1_swap_mixed_clobbers :
    (let a := (anyFromValue 8 ⟨0, 4⟩ 42 mem0).1
     let bm := anyFromValue 8 ⟨1, 16⟩ 7 mem0
     let s := anySwap a bm.1
     let s2 := anySwap bm.1 a
     anyIs ⟨0, 4⟩ s.2 = true
       ∧ anyGet ⟨0, 4⟩ s.2 bm.2 = some 1000
       ∧ anyGet ⟨0, 4⟩ s.2 bm.2 ≠ some 42
       ∧ anyGet ⟨1, 16⟩ s.1 bm.2 = some 7
       ∧ anyGet ⟨0, 4⟩ s2.1 bm.2 = some 42
       ∧ anyIs ⟨1, 16⟩ s2.2 = true
       ∧ anyGet ⟨1, 16⟩ s2.2 bm.2 = none) := by
  decide

/-- C2: the claim that raw-value assignment follows the constructors'
size threshold (inline iff `sizeof <= SIZE`) fails on an empty container:
the empty branch of `operator=(T&&)` tests `sizeof(T_) < SIZE`, so a type
of size exactly `SIZE` is heap-allocated there (one allocation, `mSBO`
false), while the constructor — and the holds-a-different-type branch of
the same operator — store it inline with no allocation. -/
theorem c2_empty_assign_threshold_bug :
    (anyAssignValue 8 ⟨2, 8⟩ 5 anyDefault mem0).map (fun r => (r.1.mSBO, r.2.allocCount)) = some (false, 1)
    ∧ (anyFromValue 8 ⟨2, 8⟩ 5 mem0).1.mSBO = true
    ∧ (anyFromValue 8 ⟨2, 8⟩ 5 mem0).2.allocCount = 0
    ∧ (anyAssignValue 8 ⟨2, 8⟩ 5 (anyFromValue 8 ⟨3, 4⟩ 1 mem0).1 mem0).map (fun r => r.1.mSBO) = some true := by
  decide

/-- C3: constructing a container from a value `v` of type `t` yields
`Is<t>() == true`, `TryGet<t>()` returning the value `v`, and
`Is<u>() == false` for every distinct type `u` — for both placements. -/
theorem c3_roundtrip (SIZE : Nat) (t u : Ty) (v : Nat) (m : Memory)
    (hv : v < byteW t.size) (h64 : m.nextAddr < byteW 8) (hu : u ≠ t) :
    anyIs t (anyFromValue SIZE t v m).1 = true
    ∧ anyTryGet t (anyFromValue SIZE t v m).1 (anyFromValue SIZE t v m).2 = some v
    ∧ anyIs u (anyFromValue SIZE t v m).1 = false := by
  have ht : t ≠ u := Ne.symm hu
  unfold anyFromValue
  by_cases h : t.size ≤ SIZE <;>
    simp [h, anyIs, anyTryGet, anyGet, memAlloc, heapRead, lookupAddr, ht,
      getBytes_setBytes_of_lt _ _ _ hv, getBytes_setBytes_of_lt _ _ _ h64,
      getBytes_of_lt _ _ hv, getBytes_getBytes]

/-- Concrete instance of `c3_roundtrip`: `Any<8>` built from a 4-byte `42`. -/
theorem c3_witness :
    anyIs ⟨0, 4⟩ (anyFromValue 8 ⟨0, 4⟩ 42 mem0).1 = true
    ∧ anyTryGet ⟨0, 4⟩ (anyFromValue 8 ⟨0, 4⟩ 42 mem0).1 (anyFromValue 8 ⟨0, 4⟩ 42 mem0).2 = some 42
    ∧ anyIs ⟨1, 16⟩ (anyFromValue 8 ⟨0, 4⟩ 42 mem0).1 = false :=
  c3_roundtrip 8 ⟨0, 4⟩ ⟨1, 16⟩ 42 mem0 (by decide) (by decide) (by decide)

/-- C4: a payload with `sizeof <= SIZE` is placed inline with the allocator
untouched; a payload with `sizeof > SIZE` performs exactly one allocation at
construction, and destroying that container performs exactly one matching
deallocation, restoring the original heap. -/
theorem c4_size_threshold_alloc (SIZE : Nat) (t : Ty) (v : Nat) (m : Memory)
    (h64 : m.nextAddr < byteW 8) :
    (t.size ≤ SIZE →
      (anyFromValue SIZE t v m).1.mSBO = true ∧ (anyFromValue SIZE t v m).2 = m)
    ∧ (SIZE < t.size →
      (anyFromValue SIZE t v m).2.allocCount = m.allocCount + 1
      ∧ (anyFromValue SIZE t v m).2.heap = (m.nextAddr, ⟨t, getBytes v t.size⟩) :: m.heap
      ∧ anyDestroy (anyFromValue SIZE t v m).1 (anyFromValue SIZE t v m).2
          = some ⟨m.heap, m.nextAddr + 1, m.allocCount + 1, m.freeCount + 1⟩) := by
  constructor
  · intro h
    simp [anyFromValue, h]
  · intro h
    have h' : ¬ t.size ≤ SIZE := not_le.mpr h
    simp [anyFromValue, h', memAlloc, anyDestroy, tableDestroy, memFree,
      lookupAddr, heapEraseList, getBytes_setBytes_of_lt _ _ _ h64]

/-- Concrete instances of `c4_size_threshold_alloc`: a 4-byte payload stays
inline in `Any<8>`; a 16-byte payload costs one allocation and one free. -/
theorem c4_witness :
    ((anyFromValue 8 ⟨0, 4⟩ 42 mem0).1.mSBO = true ∧ (anyFromValue 8 ⟨0, 4⟩ 42 mem0).2 = mem0)
    ∧ ((anyFromValue 8 ⟨1, 16⟩ 7 mem0).2.allocCount = mem0.allocCount + 1
       ∧ (anyFromValue 8 ⟨1, 16⟩ 7 mem0).2.heap = (mem0.nextAddr, ⟨⟨1, 16⟩, getBytes 7 16⟩) :: mem0.heap
       ∧ anyDestroy (anyFromValue 8 ⟨1, 16⟩ 7 mem0).1 (anyFromValue 8 ⟨1, 16⟩ 7 mem0).2
           = some ⟨mem0.heap, mem0.nextAddr + 1, mem0.allocCount + 1, mem0.freeCount + 1⟩) :=
  ⟨(c4_size_threshold_alloc 8 ⟨0, 4⟩ 42 mem0 (by decide)).1 (by decide),
   (c4_size_threshold_alloc 8 ⟨1, 16⟩ 7 mem0 (by decide)).2 (by decide)⟩

theorem setBytes_of_lt (raw s v : Nat) (h : raw < byteW s) :
    setBytes raw s v = v % byteW s := by
  unfold setBytes
  rw [Nat.div_eq_of_lt h]
  simp

theorem lookupAddr_heapWriteList (l : List (Nat × HeapObj)) (p : Nat) (t : Ty)
    (v : Nat) (o : HeapObj) (h : lookupAddr l p = some o) :
    ∃ l2, heapWriteList l p t v = some l2
      ∧ lookupAddr l2 p = some ⟨o.ty, setBytes o.val t.size v⟩ := by
  induction l with
  | nil => simp [lookupAddr] at h
  | cons hd tl ih =>
    obtain ⟨q, o2⟩ := hd
    by_cases hq : q = p
    · subst hq
      simp [lookupAddr] at h
      subst h
      exact ⟨(q, ⟨o2.ty, setBytes o2.val t.size v⟩) :: tl,
        by simp [heapWriteList], by simp [lookupAddr]⟩
    · simp [lookupAddr, hq] at h
      obtain ⟨l2, hwl, hl⟩ := ih h
      exact ⟨(q, o2) :: l2, by simp [heapWriteList, hq, hwl], by simp [lookupAddr, hq, hl]⟩

/-- C5: a container built from a `Handle<t>` to an external object at `p`
aliases it: `Is<t>` holds, `Get<t>` reads the current external value, a direct
mutation of the external object is observed through `Get<t>`/`TryGet<t>`, and
the five reference-mode table operations leave the object alone — destroying
the container changes nothing, and the copy/move operations hand back the
same address with no allocation. -/
theorem c5_reference_aliasing (t : Ty) (v w p : Nat) (m : Memory)
    (hcell : heapRead m p = some ⟨t, v⟩) (hp : p < byteW 8)
    (hv : v < byteW t.size) (hw : w < byteW t.size) :
    anyIs t (anyFromHandle t p) = true
    ∧ anyGet t (anyFromHandle t p) m = some v
    ∧ ∃ m2, heapWrite m p t w = some m2
        ∧ anyGet t (anyFromHandle t p) m2 = some w
        ∧ anyTryGet t (anyFromHandle t p) m2 = some w
        ∧ anyDestroy (anyFromHandle t p) m2 = some m2
        ∧ anyCopyCtor (anyFromHandle t p) m2 = some (anyFromHandle t p, m2)
        ∧ anyMoveCtor (anyFromHandle t p) m2 = some (anyFromHandle t p, anyFromHandle t p, m2) := by
  have hraw : getBytes (setBytes 0 8 p) 8 = p := getBytes_setBytes_of_lt _ _ _ hp
  have hsw : setBytes v t.size w = w := by
    rw [setBytes_of_lt _ _ _ hv, Nat.mod_eq_of_lt hw]
  obtain ⟨l2, hwl, hl⟩ := lookupAddr_heapWriteList m.heap p t w ⟨t, v⟩ hcell
  refine ⟨by simp [anyIs, anyFromHandle], ?_, { m with heap := l2 }, ?_, ?_, ?_, ?_, ?_, ?_⟩
  · simp [anyGet, anyFromHandle, hraw, hcell, getBytes_of_lt _ _ hv]
  · simp [heapWrite, hwl]
  · simp [anyGet, anyFromHandle, hraw, heapRead, hl, hsw, getBytes_of_lt _ _ hw]
  · simp [anyTryGet, anyIs, anyGet, anyFromHandle, hraw, heapRead, hl, hsw,
      getBytes_of_lt _ _ hw]
  · simp [anyDestroy, anyFromHandle, tableDestroy]
  · simp [anyCopyCtor, anyFromHandle, allocTransfer, hraw]
  · simp [anyMoveCtor, anyFromHandle, allocTransfer, hraw]

/-- Concrete instance of `c5_reference_aliasing`: an external 4-byte object
at address 50 holding 3, mutated to 9. -/
theorem c5_witness :
    anyIs ⟨0, 4⟩ (anyFromHandle ⟨0, 4⟩ 50) = true
    ∧ anyGet ⟨0, 4⟩ (anyFromHandle ⟨0, 4⟩ 50) ⟨[(50, ⟨⟨0, 4⟩, 3⟩)], 1000, 0, 0⟩ = some 3
    ∧ ∃ m2, heapWrite ⟨[(50, ⟨⟨0, 4⟩, 3⟩)], 1000, 0, 0⟩ 50 ⟨0, 4⟩ 9 = some m2
        ∧ anyGet ⟨0, 4⟩ (anyFromHandle ⟨0, 4⟩ 50) m2 = some 9
        ∧ anyTryGet ⟨0, 4⟩ (anyFromHandle ⟨0, 4⟩ 50) m2 = some 9
        ∧ anyDestroy (anyFromHandle ⟨0, 4⟩ 50) m2 = some m2
        ∧ anyCopyCtor (anyFromHandle ⟨0, 4⟩ 50) m2 = some (anyFromHandle ⟨0, 4⟩ 50, m2)
        ∧ anyMoveCtor (anyFromHandle ⟨0, 4⟩ 50) m2
            = some (anyFromHandle ⟨0, 4⟩ 50, anyFromHandle ⟨0, 4⟩ 50, m2) :=
  c5_reference_aliasing ⟨0, 4⟩ 3 9 50 ⟨[(50, ⟨⟨0, 4⟩, 3⟩)], 1000, 0, 0⟩
    (by decide) (by decide) (by decide) (by decide)

/-- C9: on a container in reference mode for `t`, assigning a raw value of
type `t` takes the in-place path (`Is<t>` also matches the reference table)
and writes through the stored pointer: the externally owned object is
mutated, while the container itself — table included — is unchanged. -/
theorem c9_ref_mode_value_assign (SIZE : Nat) (t : Ty) (v w p : Nat) (m : Memory)
    (hcell : heapRead m p = some ⟨t, w⟩) (hp : p < byteW 8)
    (hw : w < byteW t.size) (hv : v < byteW t.size) :
    ∃ m2, anyAssignValue SIZE t v (anyFromHandle t p) m = some (anyFromHandle t p, m2)
      ∧ heapRead m2 p = some ⟨t, v⟩
      ∧ anyGet t (anyFromHandle t p) m2 = some v := by
  have hraw : getBytes (setBytes 0 8 p) 8 = p := getBytes_setBytes_of_lt _ _ _ hp
  have hsw : setBytes w t.size v = v := by
    rw [setBytes_of_lt _ _ _ hw, Nat.mod_eq_of_lt hv]
  obtain ⟨l2, hwl, hl⟩ := lookupAddr_heapWriteList m.heap p t v ⟨t, w⟩ hcell
  refine ⟨{ m with heap := l2 }, ?_, ?_, ?_⟩
  · simp [anyAssignValue, anyIs, anyFromHandle, hraw, heapWrite, hwl]
  · simpa [heapRead, hsw] using hl
  · simp [anyGet, anyFromHandle, hraw, heapRead, hl, hsw, getBytes_of_lt _ _ hv]

/-- Concrete instance of `c9_ref_mode_value_assign`: a reference-mode `Any<8>`
aliasing a 4-byte object at address 50 holding 3; assigning 11 mutates it. -/
theorem c9_witness :
    ∃ m2, anyAssignValue 8 ⟨0, 4⟩ 11 (anyFromHandle ⟨0, 4⟩ 50) ⟨[(50, ⟨⟨0, 4⟩, 3⟩)], 1000, 0, 0⟩
        = some (anyFromHandle ⟨0, 4⟩ 50, m2)
      ∧ heapRead m2 50 = some ⟨⟨0, 4⟩, 11⟩
      ∧ anyGet ⟨0, 4⟩ (anyFromHandle ⟨0, 4⟩ 50) m2 = some 11 :=
  c9_ref_mode_value_assign 8 ⟨0, 4⟩ 11 3 50 ⟨[(50, ⟨⟨0, 4⟩, 3⟩)], 1000, 0, 0⟩
    (by decide) (by decide) (by decide) (by decide)

theorem lookupAddr_cons_some (q : Nat) (o2 : HeapObj) (l : List (Nat × HeapObj))
    (p : Nat) (o : HeapObj) (h : lookupAddr l p = some o) :
    ∃ o3, lookupAddr ((q, o2) :: l) p = some o3 := by
  by_cases hq : q = p <;> simp [lookupAddr, hq, h]

theorem memFree_isSome_of_lookup (l : List (Nat × HeapObj)) (na ac fc p : Nat)
    (o : HeapObj) (h : lookupAddr l p = some o) :
    ∃ m3, memFree ⟨l, na, ac, fc⟩ p = some m3 := by
  simp [memFree, h]

/-- C6: the move constructor reads the source through its table but never
writes the source's members: afterwards the source keeps its table pointer,
its storage-mode flag and its union bytes, is still non-empty if it was,
and is still destructible (its heap allocation, when it had one, is still
live — the allocating `Move` built a new object instead of stealing it). -/
theorem c6_move_source_preserved (other dst src : AnyState) (m m2 : Memory)
    (h : anyMoveCtor other m = some (dst, src, m2)) :
    src.mVTable = other.mVTable
    ∧ src.mSBO = other.mSBO
    ∧ src.raw = other.raw
    ∧ (anyBool other = true → anyBool src = true)
    ∧ (other.mSBO = true → anyDestroy src m2 = some m2)
    ∧ (other.mSBO = false →
        ∀ o, heapRead m (getBytes other.raw 8) = some o →
          ∃ m3, anyDestroy src m2 = some m3) := by
  rcases other with ⟨vt, raw, sbo⟩
  rcases vt with _ | vt
  · simp only [anyMoveCtor, Option.some.injEq, Prod.mk.injEq] at h
    obtain ⟨-, h2, h3⟩ := h
    subst h2
    subst h3
    exact ⟨rfl, rfl, rfl, fun hb => hb, fun _ => by simp [anyDestroy],
      fun _ o ho => ⟨m, by simp [anyDestroy]⟩⟩
  · rcases sbo with _ | _
    · rcases vt with t | t
      · rcases hr : heapRead m (getBytes raw 8) with _ | o
        · simp [anyMoveCtor, allocTransfer, hr] at h
        · simp only [anyMoveCtor, allocTransfer, hr, memAlloc, Bool.false_eq_true,
            if_false, Option.some.injEq, Prod.mk.injEq] at h
          obtain ⟨-, h2, h3⟩ := h
          subst h2
          subst h3
          refine ⟨rfl, rfl, rfl, fun hb => hb, by simp, fun _ o2 ho2 => ?_⟩
          obtain ⟨o3, hl⟩ := lookupAddr_cons_some m.nextAddr ⟨t, getBytes o.val t.size⟩
            m.heap (getBytes raw 8) o hr
          obtain ⟨m3, hm3⟩ := memFree_isSome_of_lookup
            ((m.nextAddr, ⟨t, getBytes o.val t.size⟩) :: m.heap)
            (m.nextAddr + 1) (m.allocCount + 1) m.freeCount (getBytes raw 8) o3 hl
          exact ⟨m3, hm3⟩
      · simp only [anyMoveCtor, allocTransfer, Bool.false_eq_true, if_false,
          Option.some.injEq, Prod.mk.injEq] at h
        obtain ⟨-, h2, h3⟩ := h
        subst h2
        subst h3
        exact ⟨rfl, rfl, rfl, fun hb => hb, by simp,
          fun _ o ho => ⟨m, by simp [anyDestroy, tableDestroy]⟩⟩
    · simp only [anyMoveCtor, if_true, Option.some.injEq, Prod.mk.injEq] at h
      obtain ⟨-, h2, h3⟩ := h
      subst h2
      subst h3
      refine ⟨rfl, rfl, rfl, fun hb => hb, fun _ => ?_, by simp⟩
      rcases vt with t | t <;> simp [anyDestroy, tableDestroy]

/-- Concrete instance of `c6_move_source_preserved`: moving from a heap-stored
`Any<8>` holding a 16-byte payload. -/
theorem c6_witness :
    (anyFromValue 8 ⟨1, 16⟩ 7 mem0).1.mVTable = (anyFromValue 8 ⟨1, 16⟩ 7 mem0).1.mVTable
    ∧ (anyFromValue 8 ⟨1, 16⟩ 7 mem0).1.mSBO = (anyFromValue 8 ⟨1, 16⟩ 7 mem0).1.mSBO
    ∧ (anyFromValue 8 ⟨1, 16⟩ 7 mem0).1.raw = (anyFromValue 8 ⟨1, 16⟩ 7 mem0).1.raw
    ∧ (anyBool (anyFromValue 8 ⟨1, 16⟩ 7 mem0).1 = true →
        anyBool (anyFromValue 8 ⟨1, 16⟩ 7 mem0).1 = true)
    ∧ ((anyFromValue 8 ⟨1, 16⟩ 7 mem0).1.mSBO = true →
        anyDestroy (anyFromValue 8 ⟨1, 16⟩ 7 mem0).1
          ((anyFromValue 8 ⟨1, 16⟩ 7 (anyFromValue 8 ⟨1, 16⟩ 7 mem0).2).2)
          = some ((anyFromValue 8 ⟨1, 16⟩ 7 (anyFromValue 8 ⟨1, 16⟩ 7 mem0).2).2))
    ∧ ((anyFromValue 8 ⟨1, 16⟩ 7 mem0).1.mSBO = false →
        ∀ o, heapRead (anyFromValue 8 ⟨1, 16⟩ 7 mem0).2
            (getBytes (anyFromValue 8 ⟨1, 16⟩ 7 mem0).1.raw 8) = some o →
          ∃ m3, anyDestroy (anyFromValue 8 ⟨1, 16⟩ 7 mem0).1
              ((anyFromValue 8 ⟨1, 16⟩ 7 (anyFromValue 8 ⟨1, 16⟩ 7 mem0).2).2) = some m3) :=
  c6_move_source_preserved (anyFromValue 8 ⟨1, 16⟩ 7 mem0).1
    (anyFromValue 8 ⟨1, 16⟩ 7 (anyFromValue 8 ⟨1, 16⟩ 7 mem0).2).1
    (anyFromValue 8 ⟨1, 16⟩ 7 mem0).1
    (anyFromValue 8 ⟨1, 16⟩ 7 mem0).2
    (anyFromValue 8 ⟨1, 16⟩ 7 (anyFromValue 8 ⟨1, 16⟩ 7 mem0).2).2
    (by decide)

/-- C10: `Handle<T>(const Any&)` wraps the unchecked `Get<T>` address: the
wrapped address does not depend on `T` at all (no `Is<T>` check), under the
precondition that the container is non-empty and holds exactly `t` it is the
address of the held object and dereferencing it yields the held value, and
without the precondition the address is invalid (an empty container hands
out its null `mObject`). -/
theorem c10_handle_unchecked_get (t u : Ty) (a : AnyState) (bufAddr p v : Nat)
    (m : Memory) (hsbo : a.mSBO = false) (hp : getBytes a.raw 8 = p)
    (hcell : heapRead m p = some ⟨t, v⟩) (hv : v < byteW t.size) :
    handleFromAny t a bufAddr = handleFromAny u a bufAddr
    ∧ handleFromAny t a bufAddr = anyGetPtr a bufAddr
    ∧ handleFromAny t a bufAddr = p
    ∧ (heapRead m (handleFromAny t a bufAddr)).map (fun o => getBytes o.val t.size) = some v
    ∧ anyGet t a m = some v
    ∧ (∀ b : AnyState, b.mSBO = true → handleFromAny t b bufAddr = bufAddr)
    ∧ handleFromAny t anyDefault bufAddr = 0 := by
  refine ⟨rfl, rfl, ?_, ?_, ?_, ?_, ?_⟩
  · simp [handleFromAny, anyGetPtr, hsbo, hp]
  · simp [handleFromAny, anyGetPtr, hsbo, hp, hcell, getBytes_of_lt _ _ hv]
  · simp [anyGet, hsbo, hp, hcell, getBytes_of_lt _ _ hv]
  · intro b hb
    simp [handleFromAny, anyGetPtr, hb]
  · simp [handleFromAny, anyGetPtr, anyDefault, getBytes]

/-- Concrete instance of `c10_handle_unchecked_get`: a handle taken from a
heap-stored `Any<8>` holding a 16-byte payload at address 1000. -/
theorem c10_witness :
    handleFromAny ⟨1, 16⟩ (anyFromValue 8 ⟨1, 16⟩ 7 mem0).1 77
        = handleFromAny ⟨0, 4⟩ (anyFromValue 8 ⟨1, 16⟩ 7 mem0).1 77
    ∧ handleFromAny ⟨1, 16⟩ (anyFromValue 8 ⟨1, 16⟩ 7 mem0).1 77
        = anyGetPtr (anyFromValue 8 ⟨1, 16⟩ 7 mem0).1 77
    ∧ handleFromAny ⟨1, 16⟩ (anyFromValue 8 ⟨1, 16⟩ 7 mem0).1 77 = 1000
    ∧ (heapRead (anyFromValue 8 ⟨1, 16⟩ 7 mem0).2
          (handleFromAny ⟨1, 16⟩ (anyFromValue 8 ⟨1, 16⟩ 7 mem0).1 77)).map
        (fun o => getBytes o.val (16 : Nat)) = some 7
    ∧ anyGet ⟨1, 16⟩ (anyFromValue 8 ⟨1, 16⟩ 7 mem0).1 (anyFromValue 8 ⟨1, 16⟩ 7 mem0).2 = some 7
    ∧ (∀ b : AnyState, b.mSBO = true → handleFromAny ⟨1, 16⟩ b 77 = 77)
    ∧ handleFromAny ⟨1, 16⟩ anyDefault 77 = 0 :=
  c10_handle_unchecked_get ⟨1, 16⟩ ⟨0, 4⟩ (anyFromValue 8 ⟨1, 16⟩ 7 mem0).1 77 1000 7
    (anyFromValue 8 ⟨1, 16⟩ 7 mem0).2 (by decide) (by decide) (by decide) (by decide)

theorem anySwapSelf_id (a : AnyState) : anySwapSelf a = a := by
  obtain ⟨vt, raw, sbo⟩ := a
  cases sbo
  · simp [anySwapSelf, setBytes_getBytes_self]
  · rcases vt with _ | (tt | tt)
    · simp [anySwapSelf, inlineTransfer]
    · have h1 : getBytes raw tt.size % byteW tt.size = getBytes raw tt.size :=
        Nat.mod_eq_of_lt (getBytes_lt _ _)
      simp [anySwapSelf, inlineTransfer, setBytes_zero, h1,
        setBytes_getBytes_self, getBytes_getBytes]
    · simp [anySwapSelf, inlineTransfer]

theorem anyAssignCopySelf_empty (raw : Nat) (sbo : Bool) (m : Memory) :
    anyAssignCopySelf ⟨none, raw, sbo⟩ m = some (⟨none, setBytes raw 8 0, false⟩, m) := by
  cases sbo <;>
    simp [anyAssignCopySelf, anyCopyCtor, anySwap, anyDestroy, anyDefault,
      inlineTransfer, getBytes]

theorem anyAssignCopySelf_inline (t : Ty) (raw : Nat) (m : Memory) :
    anyAssignCopySelf ⟨some (VTablePtr.val t), raw, true⟩ m
      = some (⟨some (VTablePtr.val t), raw, true⟩, m) := by
  have h1 : getBytes raw t.size % byteW t.size = getBytes raw t.size :=
    Nat.mod_eq_of_lt (getBytes_lt _ _)
  simp [anyAssignCopySelf, anyCopyCtor, anySwap, anyDestroy, tableDestroy,
    inlineTransfer, setBytes_zero, h1, getBytes_getBytes, setBytes_getBytes_self]

theorem anyAssignCopySelf_ref (t : Ty) (raw : Nat) (m : Memory) :
    anyAssignCopySelf ⟨some (VTablePtr.ref t), raw, false⟩ m
      = some (⟨some (VTablePtr.ref t), raw, false⟩, m) := by
  have h1 : getBytes raw 8 % byteW 8 = getBytes raw 8 :=
    Nat.mod_eq_of_lt (getBytes_lt _ _)
  simp [anyAssignCopySelf, anyCopyCtor, allocTransfer, anySwap, anyDestroy,
    tableDestroy, inlineTransfer, setBytes_zero, h1, getBytes_getBytes,
    setBytes_getBytes_self]

theorem anyAssignCopySelf_heap (t : Ty) (raw : Nat) (m : Memory) (o : HeapObj)
    (ho : lookupAddr m.heap (getBytes raw 8) = some o)
    (h64 : m.nextAddr < byteW 8) (hne : m.nextAddr ≠ getBytes raw 8) :
    anyAssignCopySelf ⟨some (VTablePtr.val t), raw, false⟩ m
      = some (⟨some (VTablePtr.val t), setBytes raw 8 m.nextAddr, false⟩,
          ⟨(m.nextAddr, ⟨t, getBytes o.val t.size⟩) :: heapEraseList m.heap (getBytes raw 8),
            m.nextAddr + 1, m.allocCount + 1, m.freeCount + 1⟩) := by
  have hna : m.nextAddr % byteW 8 = m.nextAddr := Nat.mod_eq_of_lt h64
  have hg : getBytes m.nextAddr 8 = m.nextAddr := getBytes_of_lt _ _ h64
  have hp : getBytes raw 8 % byteW 8 = getBytes raw 8 := Nat.mod_eq_of_lt (getBytes_lt _ _)
  simp [anyAssignCopySelf, anyCopyCtor, allocTransfer, heapRead, ho, memAlloc,
    anySwap, anyDestroy, tableDestroy, memFree, lookupAddr, heapEraseList, hne,
    setBytes_zero, hna, hg, getBytes_setBytes, hp]

/-- C7: self-swap is the identity on every container state, and
self-assignment leaves the container holding the same type and value in a
valid state — exactly (state and memory untouched) for inline-value and
reference-mode containers, still empty for an empty container, and with the
same held type and value (behind a fresh allocation) for a heap-stored one. -/
theorem c7_self_assign_self_swap (a : AnyState) (m : Memory) (t : Ty) :
    anySwapSelf a = a
    ∧ (a.mVTable = none →
        ∃ a2, anyAssignCopySelf a m = some (a2, m) ∧ a2.mVTable = none ∧ a2.mSBO = false)
    ∧ (a.mVTable = some (VTablePtr.val t) → a.mSBO = true →
        anyAssignCopySelf a m = some (a, m))
    ∧ (a.mVTable = some (VTablePtr.ref t) → a.mSBO = false →
        anyAssignCopySelf a m = some (a, m))
    ∧ (∀ o, a.mVTable = some (VTablePtr.val t) → a.mSBO = false →
        heapRead m (getBytes a.raw 8) = some o → m.nextAddr < byteW 8 →
        m.nextAddr ≠ getBytes a.raw 8 →
        ∃ a2 m2, anyAssignCopySelf a m = some (a2, m2)
          ∧ a2.mVTable = a.mVTable ∧ a2.mSBO = a.mSBO
          ∧ anyGet t a2 m2 = anyGet t a m) := by
  obtain ⟨vt, raw, sbo⟩ := a
  refine ⟨anySwapSelf_id _, ?_, ?_, ?_, ?_⟩
  · intro hvt
    have h2 : vt = none := hvt
    subst h2
    exact ⟨⟨none, setBytes raw 8 0, false⟩, anyAssignCopySelf_empty raw sbo m, rfl, rfl⟩
  · intro hvt hsbo
    have h2 : vt = some (VTablePtr.val t) := hvt
    have h3 : sbo = true := hsbo
    subst h2
    subst h3
    exact anyAssignCopySelf_inline t raw m
  · intro hvt hsbo
    have h2 : vt = some (VTablePtr.ref t) := hvt
    have h3 : sbo = false := hsbo
    subst h2
    subst h3
    exact anyAssignCopySelf_ref t raw m
  · intro o hvt hsbo ho h64 hne
    have h2 : vt = some (VTablePtr.val t) := hvt
    have h3 : sbo = false := hsbo
    subst h2
    subst h3
    have ho2 : lookupAddr m.heap (getBytes raw 8) = some o := ho
    have hna : m.nextAddr % byteW 8 = m.nextAddr := Nat.mod_eq_of_lt h64
    refine ⟨_, _, anyAssignCopySelf_heap t raw m o ho2 h64 hne, rfl, rfl, ?_⟩
    simp [anyGet, heapRead, lookupAddr, getBytes_setBytes, hna, ho2, getBytes_getBytes]

/-- Concrete instance of `c7_self_assign_self_swap`: an inline 4-byte value. -/
theorem c7_witness :
    anySwapSelf ⟨some (VTablePtr.val ⟨0, 4⟩), 42, true⟩
        = ⟨some (VTablePtr.val ⟨0, 4⟩), 42, true⟩
    ∧ anyAssignCopySelf ⟨some (VTablePtr.val ⟨0, 4⟩), 42, true⟩ mem0
        = some (⟨some (VTablePtr.val ⟨0, 4⟩), 42, true⟩, mem0) :=
  ⟨(c7_self_assign_self_swap ⟨some (VTablePtr.val ⟨0, 4⟩), 42, true⟩ mem0 ⟨0, 4⟩).1,
   (c7_self_assign_self_swap ⟨some (VTablePtr.val ⟨0, 4⟩), 42, true⟩ mem0 ⟨0, 4⟩).2.2.1 rfl rfl⟩
